import Mathlib

/-!
Verification of the message classification and dispatch engine of the
`teams-agent` bot (`src/app.py`).

The embedding works on `List Char` (Python strings) and models the
observable behaviour of one dispatch as a trace of transport events:
typing-indicator sends, completion-provider (LLM) calls, and outbound
responses (plain text or adaptive card).  External collaborators — the
completion provider, the transport's acceptance of the typing send, and
the Open-Graph HTTP fetch — are parameters of an `Env` record.
-/

/-- Whitespace predicate used by Python's `str.strip()` / `str.split()`
(the ASCII part, which is all the dispatcher ever meets). -/
def pyIsSpace (c : Char) : Bool :=
  c = ' ' || c = '\t' || c = '\n' || c = '\r' || c = '\x0b' || c = '\x0c'

/-- Removal of trailing whitespace, the right half of Python's `str.strip()`. -/
def rstrip : List Char → List Char
  | [] => []
  | c :: rest =>
    match rstrip rest with
    | [] => if pyIsSpace c then [] else [c]
    | r => c :: r

/-- Python's `str.strip()` with no arguments: drop leading and trailing
whitespace. -/
def pythonStrip (l : List Char) : List Char :=
  rstrip (l.dropWhile pyIsSpace)

/-- Accumulator worker for `pythonSplit`; `acc` holds the reversed
characters of the token currently being read. -/
def splitAux : List Char → List Char → List (List Char)
  | [], acc => if acc = [] then [] else [acc.reverse]
  | c :: rest, acc =>
    if pyIsSpace c then
      if acc = [] then splitAux rest [] else acc.reverse :: splitAux rest []
    else splitAux rest (c :: acc)

/-- Python's `str.split()` with no arguments: split on runs of whitespace,
discarding empty pieces. -/
def pythonSplit (l : List Char) : List (List Char) :=
  splitAux l []

/-- Splitting on whitespace as the spec words it (§4.2): the list of
maximal non-whitespace runs.  Used by the spec-level parser only. -/
def specSplit (l : List Char) : List (List Char) :=
  match l with
  | [] => []
  | c :: rest =>
    if pyIsSpace c then specSplit rest
    else (c :: rest.takeWhile (fun x => !pyIsSpace x))
        :: specSplit (rest.dropWhile (fun x => !pyIsSpace x))
termination_by l.length
decreasing_by
  · simp only [List.length_cons]
    omega
  · simp only [List.length_cons]
    have h : ∀ m : List Char,
        (m.dropWhile (fun x => !pyIsSpace x)).length ≤ m.length := by
      intro m
      induction m with
      | nil => simp
      | cons a t ih =>
        rw [List.dropWhile_cons]
        by_cases hpa : (!pyIsSpace a) = true
        · rw [if_pos hpa]
          simp only [List.length_cons]
          omega
        · rw [if_neg hpa]
    exact Nat.lt_succ_of_le (h rest)

/-- Python's `str.lower()` (ASCII part). -/
def toLowerList (l : List Char) : List Char :=
  l.map Char.toLower

/-- Python's `' '.join(args)`. -/
def joinSpace : List (List Char) → List Char
  | [] => []
  | [a] => a
  | a :: b :: rest => a ++ ' ' :: joinSpace (b :: rest)

/-- Test whether `text` starts with the character `/`, i.e. Python's
`text.startswith('/')` for the one-character needle. -/
def startsWithSlash : List Char → Bool
  | [] => false
  | c :: _ => c = '/'

/-- Substring test: `containsSub needle hay` is true iff `needle` occurs
contiguously inside `hay`. -/
def containsSub (needle : List Char) : List Char → Bool
  | [] => needle.isEmpty
  | c :: t => needle.isPrefixOf (c :: t) || containsSub needle t

/-- Source `is_slash_command` (app.py:383-385):
`return text.strip().startswith('/')`. -/
def is_slash_command (text : List Char) : Bool :=
  startsWithSlash (pythonStrip text)

/-- Source `parse_slash_command` (app.py:388-400).  Python returns the
pair `(command, args)` where `command` may be `None`; the `None` case is
rendered here as the first component being `none`. -/
def parse_slash_command (s : List Char) : Option (List Char) × List (List Char) :=
  if startsWithSlash (pythonStrip s) then
    match pythonSplit ((pythonStrip s).drop 1) with
    | [] => (none, [])
    | p :: rest => (some (toLowerList p), rest)
  else (none, [])

/-- Specification-level parser, following the words of spec §4.2: trim
surrounding whitespace, strip the leading `/`, split on whitespace; the
first token lower-cased is the name, the remaining tokens the arguments;
no first token (or no leading `/`) yields the no-command result. -/
def parseSpec (s : List Char) : Option (List Char) × List (List Char) :=
  if startsWithSlash (pythonStrip s) then
    match specSplit ((pythonStrip s).drop 1) with
    | [] => (none, [])
    | nm :: args => (some (toLowerList nm), args)
  else (none, [])

/-- Element of an adaptive-card body (app.py builds TextBlock and Image
elements). -/
inductive CardElement
  | textBlock (text : List Char)
  | image (url : List Char)
deriving DecidableEq

/-- Adaptive card, reduced to the data app.py actually puts in:
version, body elements, and the URLs of OpenUrl actions. -/
structure AdaptiveCard where
  version : List Char
  body : List CardElement
  actions : List (List Char)
deriving DecidableEq

/-- Result of `fetch_open_graph_metadata` (app.py:72-130): both the
success and the error path return a record of this shape. -/
structure OgData where
  title : Option (List Char)
  description : Option (List Char)
  image : Option (List Char)
  url : List Char
deriving DecidableEq

/-- Worker for `netloc`: skip to the first `//`, then read up to the
next delimiter.  Models `urlparse(url).netloc` for the URLs app.py
feeds it. -/
def netlocAux : List Char → List Char
  | '/' :: '/' :: rest => rest.takeWhile (fun c => !(c = '/' || c = '?' || c = '#'))
  | _ :: rest => netlocAux rest
  | [] => []

/-- Network location of a URL, as `create_og_preview_card` extracts it
with `urlparse(og_data['url']).netloc` (app.py:167-168). -/
def netloc (u : List Char) : List Char :=
  netlocAux u

/-- Source `create_og_preview_card` (app.py:132-190): optional image,
optional title, optional description, then the domain TextBlock, and an
OpenUrl action on the URL. -/
def create_og_preview_card (og : OgData) : AdaptiveCard :=
  { version := ("1.4").data
  , body :=
      (match og.image with | some u => [CardElement.image u] | none => [])
      ++ (match og.title with | some t => [CardElement.textBlock t] | none => [])
      ++ (match og.description with | some d => [CardElement.textBlock d] | none => [])
      ++ [CardElement.textBlock (netloc og.url)]
  , actions := [og.url] }

/-- Source `create_webpage_card` (app.py:200-239): title TextBlock,
optional image, description TextBlock, OpenUrl action. -/
def create_webpage_card (url title description : List Char)
    (imageUrl : Option (List Char)) : AdaptiveCard :=
  { version := ("1.4").data
  , body :=
      [CardElement.textBlock title]
      ++ (match imageUrl with | some u => [CardElement.image u] | none => [])
      ++ [CardElement.textBlock description]
  , actions := [url] }

/-- Card sent by `handle_webpage_request` (app.py:241-265). -/
def dashboardCard : AdaptiveCard :=
  create_webpage_card
    ("https://claude.ai/artifacts/1f4899b1-da1d-4712-aaaa-26514ec4635d").data
    ("Dashboard").data
    ("Click the button below to open the dashboard in your browser.").data
    (some ("https://learn.microsoft.com/en-us/power-bi/create-reports/media/service-dashboards/power-bi-dashboard2.png").data)

/-- Card sent by `handle_help_command` (app.py:269-309). -/
def helpCard : AdaptiveCard :=
  { version := ("1.4").data
  , body :=
      [ CardElement.textBlock ("Available Commands").data
      , CardElement.textBlock ("/help - Show available commands").data
      , CardElement.textBlock ("/search [query] - Search for information using AI").data
      , CardElement.textBlock ("/status - Check bot status").data
      , CardElement.textBlock ("You can also chat with me naturally - I\x27ll use AI to help answer your questions!").data ]
  , actions := [] }

/-- Card sent by `handle_status_command` (app.py:352-380); the first
status line reproduces the file's literal bytes. -/
def statusCard : AdaptiveCard :=
  { version := ("1.4").data
  , body :=
      [ CardElement.textBlock ("Bot Status").data
      , CardElement.textBlock ("âœ… Bot is running and ready!").data
      , CardElement.textBlock ("ReKnew AI Teams Bot is operational and ready to assist you.").data ]
  , actions := [] }

/-- Card sent on a successful `/search` (app.py:328-345). -/
def searchCard (query answer : List Char) : AdaptiveCard :=
  { version := ("1.4").data
  , body :=
      [ CardElement.textBlock (("Search Results: ").data ++ query)
      , CardElement.textBlock answer ]
  , actions := [] }

/-- Observable transport/provider events of one dispatch, in order:
typing-indicator sends, completion-provider invocations, and outbound
responses (plain text or card). -/
inductive Event
  | typing
  | llmCall (prompt : List Char)
  | sendText (msg : List Char)
  | sendCard (card : AdaptiveCard)
deriving DecidableEq

/-- External collaborators of one dispatch: the completion provider
(`groq_llm.invoke`, which either returns text or raises with a detail
string), whether the transport accepts a typing-indicator send, and the
Open-Graph fetch result for the fixed URL. -/
structure Env where
  llm : List Char → Except (List Char) (List Char)
  typingOk : Bool
  og : OgData

/-- An event is an outbound response (plain text or card). -/
def isResponse : Event → Bool
  | Event.sendText _ => true
  | Event.sendCard _ => true
  | _ => false

/-- An event is a completion-provider invocation. -/
def isLlmCall : Event → Bool
  | Event.llmCall _ => true
  | _ => false

/-- Number of outbound responses in a trace. -/
def countResponses (tr : List Event) : Nat :=
  tr.countP (fun e => isResponse e)

/-- Number of completion-provider invocations in a trace. -/
def countLlmCalls (tr : List Event) : Nat :=
  tr.countP (fun e => isLlmCall e)

/-- The outbound responses of a trace, in order. -/
def responsesOf (tr : List Event) : List Event :=
  tr.filter (fun e => isResponse e)

/-- Prompt string of the `/search` completion call (app.py:324). -/
def searchPromptOf (query : List Char) : List Char :=
  ("Search and provide information about: ").data ++ query

/-- Usage hint sent by `/search` with no arguments (app.py:315). -/
def searchUsageMsg : List Char :=
  ("Please provide a search query. Usage: /search [your query]").data

/-- Error reply of the `/search` handler (app.py:349). -/
def searchErrMsg (detail : List Char) : List Char :=
  ("I encountered an error while searching: ").data
    ++ (detail ++ (". Please try again.").data)

/-- Error reply of the free-form LLM path (app.py:439). -/
def llmErrMsg (detail : List Char) : List Char :=
  ("I encountered an error: ").data
    ++ (detail ++ (". Please try again.").data)

/-- Python's `str(command)` where `command` is `Optional[str]`:
`None` renders as the four letters `None`. -/
def pyStr : Option (List Char) → List Char
  | none => ("None").data
  | some s => s

/-- Unknown-command reply (app.py:424), the f-string
`f"Unknown command: /{command}. Type /help to see available commands."`. -/
def unknownMsg (command : Option (List Char)) : List Char :=
  ("Unknown command: /").data
    ++ (pyStr command ++ (". Type /help to see available commands.").data)

/-- Greeting reply of `handle_greeting` (app.py:67-70). -/
def greetingMsg : List Char :=
  ("Hello! How can I assist you today?").data

/-- Source `handle_search_command` (app.py:312-349) as a trace of
events plus an optional uncaught exception.  The typing reply at
app.py:319 is outside the handler's try block, so its failure
propagates. -/
def handle_search_command (env : Env) (args : List (List Char)) :
    List Event × Option Unit :=
  if args = [] then ([Event.sendText searchUsageMsg], none)
  else
    if env.typingOk then
      match env.llm (searchPromptOf (joinSpace args)) with
      | Except.ok answer =>
          ([Event.typing, Event.llmCall (searchPromptOf (joinSpace args)),
            Event.sendCard (searchCard (joinSpace args) answer)], none)
      | Except.error e =>
          ([Event.typing, Event.llmCall (searchPromptOf (joinSpace args)),
            Event.sendText (searchErrMsg e)], none)
    else ([Event.typing], some ())

/-- Source `handle_message` (app.py:403-440), the catch-all message
handler: typing reply (uncaught on failure), slash-command routing,
else the free-form LLM path inside try/except. -/
def handle_message (env : Env) (text : List Char) : List Event × Option Unit :=
  if env.typingOk then
    if is_slash_command text then
      if (parse_slash_command text).1 = some ("help").data then
        ([Event.typing, Event.sendCard helpCard], none)
      else if (parse_slash_command text).1 = some ("search").data then
        (Event.typing :: (handle_search_command env (parse_slash_command text).2).1,
         (handle_search_command env (parse_slash_command text).2).2)
      else if (parse_slash_command text).1 = some ("status").data then
        ([Event.typing, Event.sendCard statusCard], none)
      else
        ([Event.typing, Event.sendText (unknownMsg (parse_slash_command text).1)], none)
    else
      match env.llm text with
      | Except.ok answer =>
          ([Event.typing, Event.llmCall text, Event.sendText answer], none)
      | Except.error e =>
          ([Event.typing, Event.llmCall text, Event.sendText (llmErrMsg e)], none)
  else ([Event.typing], some ())

/-- First registered pattern (app.py:67): `re.compile(r"hello|hi|greetings")`,
matched with `search`, i.e. any of the three literals occurs in the text. -/
def matchesGreeting (text : List Char) : Bool :=
  containsSub ("hello").data text || containsSub ("hi").data text
    || containsSub ("greetings").data text

/-- Second registered pattern (app.py:192): `re.compile(r"open graph protocol test")`. -/
def matchesOg (text : List Char) : Bool :=
  containsSub ("open graph protocol test").data text

/-- Third registered pattern (app.py:241): `re.compile(r"dashboard", re.IGNORECASE)`. -/
def matchesDashboard (text : List Char) : Bool :=
  containsSub ("dashboard").data (toLowerList text)

/-- Modelled from the spec: the routing between the pattern handlers and
the catch-all `handle_message` is performed by the external Teams
framework (`app.on_message_pattern` registrations precede the
`app.on_message` catch-all); spec §4.5 fixes patterns-before-commands in
registration order.  The individual handlers are from src/app.py. -/
def dispatch (env : Env) (text : List Char) : List Event × Option Unit :=
  if matchesGreeting text then ([Event.sendText greetingMsg], none)
  else if matchesOg text then
    ([Event.sendCard (create_og_preview_card env.og)], none)
  else if matchesDashboard text then ([Event.sendCard dashboardCard], none)
  else handle_message env text

/-- Sequential processing of a list of inbound messages; the dispatcher
holds no state of its own between messages (the module globals app.py
reads — the LLM client and configuration — are immutable and sit in
`env`). -/
def runMessages (env : Env) (ms : List (List Char)) :
    List (List Event × Option Unit) :=
  ms.map (dispatch env)

lemma containsSub_nil (hay : List Char) : containsSub [] hay = true := by
  induction hay with
  | nil => rfl
  | cons c t ih => simp [containsSub, List.isPrefixOf]

lemma isPrefixOf_append_weaken (n : List Char) :
    ∀ u b : List Char, n.isPrefixOf u = true → n.isPrefixOf (u ++ b) = true := by
  induction n with
  | nil => intro u b _; simp [List.isPrefixOf]
  | cons a as ih =>
    intro u b h
    cases u with
    | nil => simp [List.isPrefixOf] at h
    | cons x xs =>
      simp only [List.isPrefixOf, Bool.and_eq_true] at h
      simp only [List.cons_append, List.isPrefixOf, Bool.and_eq_true]
      exact ⟨h.1, ih xs b h.2⟩

lemma isPrefixOf_self_append (d b : List Char) :
    d.isPrefixOf (d ++ b) = true := by
  have h : d.isPrefixOf d = true := by
    induction d with
    | nil => rfl
    | cons a as ih => simp [List.isPrefixOf, ih]
  exact isPrefixOf_append_weaken d d b h

lemma containsSub_of_isPrefixOf (n hay : List Char)
    (h : n.isPrefixOf hay = true) : containsSub n hay = true := by
  cases hay with
  | nil =>
    cases n with
    | nil => rfl
    | cons a as => simp [List.isPrefixOf] at h
  | cons c t => simp [containsSub, h]

lemma containsSub_append_right (n a b : List Char)
    (h : containsSub n b = true) : containsSub n (a ++ b) = true := by
  induction a with
  | nil => simpa using h
  | cons c a' ih => simp [containsSub, ih]

lemma containsSub_append_mid (a d b : List Char) :
    containsSub d (a ++ (d ++ b)) = true := by
  apply containsSub_append_right
  exact containsSub_of_isPrefixOf d (d ++ b) (isPrefixOf_self_append d b)

lemma rstrip_cons_of_not_space (c : Char) (l : List Char)
    (h : pyIsSpace c = false) : rstrip (c :: l) = c :: rstrip l := by
  cases hr : rstrip l with
  | nil => simp [rstrip, hr, h]
  | cons x xs => simp [rstrip, hr]

lemma pythonStrip_cons_of_not_space (c : Char) (l : List Char)
    (h : pyIsSpace c = false) : pythonStrip (c :: l) = c :: rstrip l := by
  unfold pythonStrip
  rw [List.dropWhile_cons]
  simp only [h, if_false]
  exact rstrip_cons_of_not_space c l h

lemma is_slash_command_cons_false (c : Char) (l : List Char)
    (h1 : pyIsSpace c = false) (h2 : c ≠ '/') :
    is_slash_command (c :: l) = false := by
  unfold is_slash_command
  rw [pythonStrip_cons_of_not_space c l h1]
  simp [startsWithSlash, h2]

lemma specSplit_nil : specSplit [] = [] := by
  rw [specSplit]

lemma specSplit_cons (c : Char) (rest : List Char) :
    specSplit (c :: rest)
      = if pyIsSpace c then specSplit rest
        else (c :: rest.takeWhile (fun x => !pyIsSpace x))
            :: specSplit (rest.dropWhile (fun x => !pyIsSpace x)) := by
  rw [specSplit]

lemma splitAux_eq_specSplit : ∀ l : List Char,
    splitAux l [] = specSplit l ∧
    ∀ acc : List Char, acc ≠ [] →
      splitAux l acc
        = (acc.reverse ++ l.takeWhile (fun x => !pyIsSpace x))
            :: specSplit (l.dropWhile (fun x => !pyIsSpace x)) := by
  intro l
  induction l with
  | nil =>
    constructor
    · simp [splitAux, specSplit_nil]
    · intro acc hacc
      simp [splitAux, specSplit_nil, hacc]
  | cons c rest ih =>
    cases hc : pyIsSpace c with
    | true =>
      constructor
      · rw [splitAux, specSplit_cons]
        simp only [hc, if_true]
        exact ih.1
      · intro acc hacc
        rw [splitAux]
        simp only [hc, if_true, if_neg hacc]
        rw [List.takeWhile_cons, List.dropWhile_cons]
        simp [hc, ih.1, specSplit_cons]
    | false =>
      constructor
      · rw [splitAux, specSplit_cons]
        simp only [hc, if_false, Bool.not_false]
        rw [(ih.2 [c] (by simp))]
        simp
      · intro acc hacc
        rw [splitAux]
        simp only [hc]
        rw [(ih.2 (c :: acc) (by simp))]
        rw [List.takeWhile_cons, List.dropWhile_cons]
        simp only [hc, Bool.not_false]
        simp

lemma pythonSplit_eq_specSplit (l : List Char) :
    pythonSplit l = specSplit l :=
  (splitAux_eq_specSplit l).1

lemma getElem_append_middle {α : Type} (pre : List α) (m : α) (post : List α) :
    (pre ++ m :: post)[pre.length]? = some m := by
  induction pre with
  | nil => simp
  | cons a pre ih => simpa using ih

/-- Open-Graph fetch result used by the concrete environments below. -/
def ogDemo : OgData :=
  { title := some ("Open Graph protocol").data
  , description := none
  , image := none
  , url := ("https://ogp.me/").data }

/-- Concrete environment: provider answers, transport accepts typing. -/
def envOk : Env :=
  { llm := fun _ => Except.ok ("All good.").data
  , typingOk := true
  , og := ogDemo }

/-- Concrete environment: provider fails with detail `timeout`. -/
def envTimeout : Env :=
  { llm := fun _ => Except.error ("timeout").data
  , typingOk := true
  , og := ogDemo }

/-- Concrete environment: the transport rejects the typing send. -/
def envNoTyping : Env :=
  { llm := fun _ => Except.ok ("All good.").data
  , typingOk := false
  , og := ogDemo }

lemma handle_search_command_shape (env : Env) (args : List (List Char))
    (h : env.typingOk = true) :
    countResponses (handle_search_command env args).1 = 1
      ∧ (handle_search_command env args).2 = none := by
  rw [handle_search_command]
  by_cases ha : args = []
  · rw [if_pos ha]
    exact ⟨by decide, rfl⟩
  · rw [if_neg ha, h, if_pos rfl]
    cases hl : env.llm (searchPromptOf (joinSpace args)) with
    | ok a =>
      exact ⟨by simp [countResponses, List.countP_cons, isResponse], rfl⟩
    | error e =>
      exact ⟨by simp [countResponses, List.countP_cons, isResponse], rfl⟩

lemma countResponses_typing_cons (tr : List Event) :
    countResponses (Event.typing :: tr) = countResponses tr := by
  simp [countResponses, List.countP_cons, isResponse]

lemma handle_message_shape (env : Env) (text : List Char)
    (h : env.typingOk = true) :
    countResponses (handle_message env text).1 = 1
      ∧ (handle_message env text).2 = none := by
  rw [handle_message, h, if_pos rfl]
  by_cases hc : is_slash_command text = true
  · rw [if_pos hc]
    by_cases h1 : (parse_slash_command text).1 = some ("help").data
    · rw [if_pos h1]
      exact ⟨by decide, rfl⟩
    · rw [if_neg h1]
      by_cases h2 : (parse_slash_command text).1 = some ("search").data
      · rw [if_pos h2]
        have hs := handle_search_command_shape env (parse_slash_command text).2 h
        exact ⟨by rw [countResponses_typing_cons]; exact hs.1, hs.2⟩
      · rw [if_neg h2]
        by_cases h3 : (parse_slash_command text).1 = some ("status").data
        · rw [if_pos h3]
          exact ⟨by decide, rfl⟩
        · rw [if_neg h3]
          exact ⟨by simp [countResponses, List.countP_cons, isResponse], rfl⟩
  · rw [if_neg hc]
    cases hl : env.llm text with
    | ok a =>
      exact ⟨by simp [countResponses, List.countP_cons, isResponse], rfl⟩
    | error e =>
      exact ⟨by simp [countResponses, List.countP_cons, isResponse], rfl⟩

/-- C1: every inbound message produces exactly one outbound response
(plain text or card): under a transport that accepts the typing send,
every branch of dispatch — pattern handlers, help, search, status,
unknown command, and the free-form completion path whether the provider
succeeds or fails — emits exactly one response and lets no exception
escape. -/
theorem c1_exactly_one_response (env : Env) (text : List Char)
    (h : env.typingOk = true) :
    countResponses (dispatch env text).1 = 1 ∧ (dispatch env text).2 = none := by
  rw [dispatch]
  by_cases h1 : matchesGreeting text = true
  · rw [if_pos h1]
    exact ⟨by decide, rfl⟩
  · rw [if_neg h1]
    by_cases h2 : matchesOg text = true
    · rw [if_pos h2]
      exact ⟨by simp [countResponses, List.countP_cons, isResponse], rfl⟩
    · rw [if_neg h2]
      by_cases h3 : matchesDashboard text = true
      · rw [if_pos h3]
        exact ⟨by decide, rfl⟩
      · rw [if_neg h3]
        exact handle_message_shape env text h

/-- Witness for C1 at a concrete environment and message. -/
theorem c1_witness :
    envOk.typingOk = true
      ∧ countResponses (dispatch envOk ("What can you do?").data).1 = 1
      ∧ (dispatch envOk ("What can you do?").data).2 = none :=
  ⟨rfl, (c1_exactly_one_response envOk ("What can you do?").data rfl).1,
    (c1_exactly_one_response envOk ("What can you do?").data rfl).2⟩

/-- C2: the slash-command parser agrees everywhere with the spec-level
parser (trim surrounding whitespace, strip the leading `/`, split on
runs of whitespace, lower-case the first token as the name, remaining
tokens as arguments in order), and satisfies the four example
equations; the no-command result is the pair with `none` in the name
position, which is how the source renders the spec's `none`. -/
theorem c2_parse_slash_command :
    (∀ s : List Char, parse_slash_command s = parseSpec s)
      ∧ parse_slash_command ("/help").data = (some ("help").data, [])
      ∧ parse_slash_command ("/search foo bar").data
          = (some ("search").data, [("foo").data, ("bar").data])
      ∧ parse_slash_command ("/").data = (none, [])
      ∧ parse_slash_command ("hello").data = (none, []) := by
  refine ⟨?_, by decide, by decide, by decide, by decide⟩
  intro s
  rw [parse_slash_command, parseSpec, pythonSplit_eq_specSplit]

/-- C3: `is_slash_command` returns true exactly when the text trimmed of
surrounding whitespace starts with the character `/`, with the two
example evaluations. -/
theorem c3_is_slash_command :
    (∀ s : List Char, is_slash_command s = true ↔ ∃ t, pythonStrip s = '/' :: t)
      ∧ is_slash_command (" /status ").data = true
      ∧ is_slash_command ("status").data = false := by
  refine ⟨?_, by decide, by decide⟩
  intro s
  rw [is_slash_command]
  cases hp : pythonStrip s with
  | nil =>
    simp [startsWithSlash]
  | cons c t =>
    simp only [startsWithSlash]
    constructor
    · intro h
      have hc : c = '/' := by simpa using h
      exact ⟨t, by rw [hc]⟩
    · rintro ⟨u, hu⟩
      injection hu with hc ht
      simp [hc]

lemma slash_text_ne_searchPrompt (text q : List Char)
    (hc : is_slash_command text = true) : searchPromptOf q ≠ text := by
  intro he
  rw [← he] at hc
  have h1 : searchPromptOf q
      = 'S' :: (("earch and provide information about: ").data ++ q) := rfl
  rw [h1] at hc
  rw [is_slash_command_cons_false 'S' _ (by decide) (by decide)] at hc
  exact Bool.false_ne_true hc

lemma handle_search_llmCall (env : Env) (args : List (List Char)) (p : List Char)
    (hp : Event.llmCall p ∈ (handle_search_command env args).1) :
    p = searchPromptOf (joinSpace args) := by
  rw [handle_search_command] at hp
  by_cases ha : args = []
  · rw [if_pos ha] at hp
    simp at hp
  · rw [if_neg ha] at hp
    by_cases ht : env.typingOk = true
    · rw [ht, if_pos rfl] at hp
      cases hl : env.llm (searchPromptOf (joinSpace args)) with
      | ok a =>
        rw [hl] at hp
        simpa using hp
      | error e =>
        rw [hl] at hp
        simpa using hp
    · rw [Bool.not_eq_true] at ht
      rw [ht] at hp
      simp at hp

/-- C4: a slash message whose parsed command is not help, search or
status gets the unknown-command reply — which names the command and
points to `/help` — with no completion-adapter call at all; and no
slash message ever triggers the plain-text completion, i.e. a provider
call whose prompt is the raw message text. -/
theorem c4_unknown_command (env : Env) (text : List Char)
    (h : env.typingOk = true) (hc : is_slash_command text = true) :
    ((parse_slash_command text).1 ≠ some ("help").data →
     (parse_slash_command text).1 ≠ some ("search").data →
     (parse_slash_command text).1 ≠ some ("status").data →
       handle_message env text
         = ([Event.typing,
             Event.sendText (unknownMsg (parse_slash_command text).1)], none)
       ∧ containsSub (pyStr (parse_slash_command text).1)
           (unknownMsg (parse_slash_command text).1) = true
       ∧ containsSub ("/help").data
           (unknownMsg (parse_slash_command text).1) = true)
    ∧ ∀ p : List Char,
        Event.llmCall p ∈ (handle_message env text).1 → p ≠ text := by
  rw [handle_message, h, if_pos rfl, if_pos hc]
  constructor
  · intro h1 h2 h3
    rw [if_neg h1, if_neg h2, if_neg h3]
    refine ⟨rfl, ?_, ?_⟩
    · rw [unknownMsg]
      exact containsSub_append_mid _ _ _
    · rw [unknownMsg]
      apply containsSub_append_right
      apply containsSub_append_right
      decide
  · intro p hp
    by_cases h1 : (parse_slash_command text).1 = some ("help").data
    · rw [if_pos h1] at hp
      simp at hp
    · rw [if_neg h1] at hp
      by_cases h2 : (parse_slash_command text).1 = some ("search").data
      · rw [if_pos h2] at hp
        simp only [List.mem_cons] at hp
        rcases hp with hp | hp
        · exact absurd hp (by simp)
        · have := handle_search_llmCall env (parse_slash_command text).2 p hp
          rw [this]
          exact slash_text_ne_searchPrompt text _ hc
      · rw [if_neg h2] at hp
        by_cases h3 : (parse_slash_command text).1 = some ("status").data
        · rw [if_pos h3] at hp
          simp at hp
        · rw [if_neg h3] at hp
          simp at hp

/-- Witness for C4: dispatching the unrecognized command `/unknowncmd`
in a concrete environment. -/
theorem c4_witness :
    handle_message envOk ("/unknowncmd").data
        = ([Event.typing,
            Event.sendText (unknownMsg (some ("unknowncmd").data))], none)
      ∧ containsSub ("unknowncmd").data
          (unknownMsg (some ("unknowncmd").data)) = true
      ∧ containsSub ("/help").data
          (unknownMsg (some ("unknowncmd").data)) = true := by
  have h := (c4_unknown_command envOk ("/unknowncmd").data rfl (by decide)).1
      (by decide) (by decide) (by decide)
  have hp : parse_slash_command ("/unknowncmd").data
      = (some ("unknowncmd").data, []) := by decide
  rw [hp] at h
  simpa [pyStr] using h

/-- C5: `/search` with an empty argument list replies with the usage
hint and returns without any completion-adapter call; a completion call
from the search handler implies at least one argument was present. -/
theorem c5_search_empty_args :
    (∀ env : Env,
      handle_search_command env [] = ([Event.sendText searchUsageMsg], none))
      ∧ containsSub ("Usage: /search").data searchUsageMsg = true
      ∧ ∀ (env : Env) (args : List (List Char)) (p : List Char),
          Event.llmCall p ∈ (handle_search_command env args).1 → args ≠ [] := by
  refine ⟨?_, by decide, ?_⟩
  · intro env
    rw [handle_search_command]
    simp
  · intro env args p hp ha
    subst ha
    rw [handle_search_command] at hp
    simp at hp

/-- Witness for C5 at a concrete environment. -/
theorem c5_witness :
    handle_search_command envOk [] = ([Event.sendText searchUsageMsg], none)
      ∧ containsSub ("Usage: /search").data searchUsageMsg = true :=
  ⟨c5_search_empty_args.1 envOk, c5_search_empty_args.2.1⟩

/-- C6: a free-form message (matching no pattern and not a slash
command) whose completion call fails with detail `d` is recovered at
the dispatcher boundary: exactly one plain-text response is emitted, it
embeds `d` and the word error, the provider is called exactly once (no
retry), and no exception escapes. -/
theorem c6_completion_error (env : Env) (text d : List Char)
    (h1 : matchesGreeting text = false) (h2 : matchesOg text = false)
    (h3 : matchesDashboard text = false)
    (hc : is_slash_command text = false) (ht : env.typingOk = true)
    (hl : env.llm text = Except.error d) :
    dispatch env text
        = ([Event.typing, Event.llmCall text, Event.sendText (llmErrMsg d)], none)
      ∧ countResponses (dispatch env text).1 = 1
      ∧ countLlmCalls (dispatch env text).1 = 1
      ∧ containsSub d (llmErrMsg d) = true
      ∧ containsSub ("error").data (llmErrMsg d) = true := by
  have hd : dispatch env text
      = ([Event.typing, Event.llmCall text, Event.sendText (llmErrMsg d)], none) := by
    rw [dispatch, h1, h2, h3]
    simp only [Bool.false_eq_true, if_false]
    rw [handle_message, ht, if_pos rfl, hc]
    simp only [Bool.false_eq_true, if_false]
    rw [hl]
  refine ⟨hd, ?_, ?_, ?_, ?_⟩
  · rw [hd]
    simp [countResponses, List.countP_cons, isResponse]
  · rw [hd]
    simp [countLlmCalls, List.countP_cons, isLlmCall]
  · rw [llmErrMsg]
    exact containsSub_append_mid _ _ _
  · rw [llmErrMsg]
    have hsplit : ("I encountered an error: ").data
        = ("I encountered an ").data ++ ("error: ").data := by decide
    rw [hsplit, List.append_assoc]
    apply containsSub_append_right
    apply containsSub_of_isPrefixOf
    apply isPrefixOf_append_weaken
    decide

/-- Witness for C6: the timeout environment on a concrete free-form
message. -/
theorem c6_witness :
    dispatch envTimeout ("weather").data
        = ([Event.typing, Event.llmCall ("weather").data,
            Event.sendText (llmErrMsg ("timeout").data)], none)
      ∧ containsSub ("timeout").data (llmErrMsg ("timeout").data) = true
      ∧ containsSub ("error").data (llmErrMsg ("timeout").data) = true := by
  have h := c6_completion_error envTimeout ("weather").data ("timeout").data
    (by decide) (by decide) (by decide) (by decide) rfl rfl
  exact ⟨h.1, h.2.2.2.1, h.2.2.2.2⟩

/-- C7: a message matching a registered route pattern is handled by the
matched pattern handler alone: the completion adapter is never invoked,
the slash-command path (which always begins with the catch-all's typing
reply) is never entered, exactly one response is sent, and text matching
the greeting pattern gets exactly the greeting reply. -/
theorem c7_pattern_precedence (env : Env) (text : List Char)
    (h : matchesGreeting text = true ∨ matchesOg text = true
          ∨ matchesDashboard text = true) :
    (∀ p : List Char, Event.llmCall p ∉ (dispatch env text).1)
      ∧ Event.typing ∉ (dispatch env text).1
      ∧ countResponses (dispatch env text).1 = 1
      ∧ (dispatch env text).2 = none
      ∧ (matchesGreeting text = true →
          dispatch env text = ([Event.sendText greetingMsg], none)) := by
  by_cases h1 : matchesGreeting text = true
  · rw [dispatch, if_pos h1]
    exact ⟨by simp, by simp, by decide, rfl, fun _ => rfl⟩
  · by_cases h2 : matchesOg text = true
    · rw [dispatch, if_neg h1, if_pos h2]
      exact ⟨by simp, by simp,
        by simp [countResponses, List.countP_cons, isResponse], rfl,
        fun hg => absurd hg h1⟩
    · by_cases h3 : matchesDashboard text = true
      · rw [dispatch, if_neg h1, if_neg h2, if_pos h3]
        exact ⟨by simp, by simp, by decide, rfl, fun hg => absurd hg h1⟩
      · rcases h with hh | hh | hh
        · exact absurd hh h1
        · exact absurd hh h2
        · exact absurd hh h3

/-- Witness for C7: a greeting message in a concrete environment. -/
theorem c7_witness :
    (∀ p : List Char, Event.llmCall p ∉ (dispatch envOk ("hello there").data).1)
      ∧ Event.typing ∉ (dispatch envOk ("hello there").data).1
      ∧ dispatch envOk ("hello there").data
          = ([Event.sendText greetingMsg], none) := by
  have h := c7_pattern_precedence envOk ("hello there").data (Or.inl (by decide))
  exact ⟨h.1, h.2.1, h.2.2.2.2 (by decide)⟩

/-- C8 counterexample: the claim that a failed typing-indicator send is
silently ignored and does not alter the rest of dispatch is false at
the concrete message `weather`: with a transport that rejects the
typing send the handler aborts with an uncaught exception and emits no
response at all, while the same handler with a working transport emits
one — so the failure does alter the final response. -/
theorem c8_counterexample :
    responsesOf (handle_message envNoTyping ("weather").data).1 = []
      ∧ (handle_message envNoTyping ("weather").data).2 = some ()
      ∧ responsesOf (handle_message envOk ("weather").data).1
          ≠ responsesOf (handle_message envNoTyping ("weather").data).1 := by
  exact ⟨by decide, by decide, by decide⟩

/-- C8 as amended: the catch-all handler's first transport action is
the typing send, before any handler or completion call; but the send is
not best-effort — if the transport rejects it, the exception propagates
out of the handler, aborting dispatch with no response sent. -/
theorem c8_amended_typing_first (env : Env) (text : List Char) :
    (handle_message env text).1.head? = some Event.typing
      ∧ (env.typingOk = false →
          handle_message env text = ([Event.typing], some ())) := by
  constructor
  · rw [handle_message]
    by_cases ht : env.typingOk = true
    · rw [ht, if_pos rfl]
      by_cases hc : is_slash_command text = true
      · rw [if_pos hc]
        by_cases h1 : (parse_slash_command text).1 = some ("help").data
        · rw [if_pos h1]
          rfl
        · rw [if_neg h1]
          by_cases h2 : (parse_slash_command text).1 = some ("search").data
          · rw [if_pos h2]
            rfl
          · rw [if_neg h2]
            by_cases h3 : (parse_slash_command text).1 = some ("status").data
            · rw [if_pos h3]
              rfl
            · rw [if_neg h3]
              rfl
      · rw [if_neg hc]
        cases hl : env.llm text with
        | ok a => rfl
        | error e => rfl
    · rw [Bool.not_eq_true] at ht
      rw [ht]
      simp
  · intro hf
    rw [handle_message, hf]
    simp

/-- Witness for the amended C8 at a concrete environment. -/
theorem c8_amended_witness :
    (handle_message envNoTyping ("weather").data).1.head? = some Event.typing
      ∧ handle_message envNoTyping ("weather").data = ([Event.typing], some ()) :=
  ⟨(c8_amended_typing_first envNoTyping ("weather").data).1,
   (c8_amended_typing_first envNoTyping ("weather").data).2 rfl⟩

/-- C9: dispatch is deterministic and stateless across messages: with
the same deterministic environment, processing the same inbound message
twice yields two structurally identical results, and the result for a
message is independent of the messages processed around it. -/
theorem c9_idempotent_dispatch (env : Env) (m : List Char) :
    runMessages env [m, m] = [dispatch env m, dispatch env m]
      ∧ ∀ pre post : List (List Char),
          (runMessages env (pre ++ m :: post))[pre.length]?
            = some (dispatch env m) := by
  constructor
  · rfl
  · intro pre post
    rw [runMessages, List.getElem?_map, getElem_append_middle]
    rfl

/-- C10: a message whose trimmed text is exactly `/` is classified as a
slash command, parses to the no-command result `(none, [])`, and is
routed to the unknown-command branch, whose reply renders the missing
command name as the literal text `None` instead of a distinct
no-command signal. -/
theorem c10_bare_slash (env : Env) (text : List Char)
    (ht : env.typingOk = true) (h : pythonStrip text = ['/']) :
    is_slash_command text = true
      ∧ parse_slash_command text = (none, [])
      ∧ handle_message env text
          = ([Event.typing, Event.sendText (unknownMsg none)], none)
      ∧ unknownMsg none
          = ("Unknown command: /None. Type /help to see available commands.").data := by
  have hcmd : is_slash_command text = true := by
    rw [is_slash_command, h]
    decide
  have hparse : parse_slash_command text = (none, []) := by
    rw [parse_slash_command, h]
    decide
  refine ⟨hcmd, hparse, ?_, by decide⟩
  rw [handle_message, ht, if_pos rfl, if_pos hcmd, hparse]
  simp

/-- Witness for C10: a slash followed only by whitespace. -/
theorem c10_witness :
    is_slash_command ("/ ").data = true
      ∧ parse_slash_command ("/ ").data = (none, [])
      ∧ handle_message envOk ("/ ").data
          = ([Event.typing, Event.sendText (unknownMsg none)], none) := by
  have h := c10_bare_slash envOk ("/ ").data rfl (by decide)
  exact ⟨h.1, h.2.1, h.2.2.1⟩
